import Mathlib

/-!
Verification of the WTF (Where is The Food) multi-agent review pipeline.

The repository documents (README.md, Pipeline 2) a multi-agent debate
pipeline: a ContextBuilder selects an evidence source (real reviews or an
AI-generated synthetic summary) and renders a bounded context, an
AgentOrchestrator runs Optimistic, Critical and Judge passes over it, and
an OutputValidator checks the three-line verdict.  The core pipeline code
is not part of the repository sources; those components are modelled from
the specification document and are marked as such.  The Home screen
component (Yelp-mobile/screens/Home.jsx) is embedded from its source.
-/

namespace WTF

/-! ## Character-list utilities

Text is represented as Lean `String`; all operations are defined on the
underlying character list so that their behaviour is fully transparent. -/

/-- Boolean test that the second list starts with the first (pattern) list. -/
def leadsWith : List Char → List Char → Bool
  | [], _ => true
  | _ :: _, [] => false
  | p :: ps, c :: cs => p == c && leadsWith ps cs

/-- Boolean test that `pat` occurs as a contiguous run inside `l`. -/
def hasSub (pat : List Char) : List Char → Bool
  | [] => pat.isEmpty
  | c :: cs => leadsWith pat (c :: cs) || hasSub pat cs

/-- Split a character list at every occurrence of `sep`; the separator is
dropped and the chunks are returned in order.  Splitting the empty list
yields one empty chunk, matching the behaviour of line splitting. -/
def splitChar (sep : Char) : List Char → List (List Char)
  | [] => [[]]
  | c :: cs =>
    if c = sep then [] :: splitChar sep cs
    else
      match splitChar sep cs with
      | [] => [[c]]
      | h :: t => (c :: h) :: t

/-- Truncate a string to its first `n` characters. -/
def truncateTo (n : Nat) (s : String) : String :=
  String.mk (s.data.take n)

/-! ## Data model (modelled from the spec) -/

/-- Modelled from the spec: a user review, rating in `[1,5]` with the
review text.  The float rating is modelled as a rational number. -/
structure Review where
  rating : Rat
  text : String
deriving DecidableEq

/-- Modelled from the spec: price level, an enum 1..4 or unknown. -/
inductive PriceLevel where
  | one
  | two
  | three
  | four
  | unknown
deriving DecidableEq

/-- Modelled from the spec: business metadata fetched upstream. -/
structure BusinessMetadata where
  name : String
  rating : Rat
  price : PriceLevel
  categories : List String
  address : String
deriving DecidableEq

/-- Modelled from the spec: the tagged evidence variant — real reviews or
a synthetic summary of positive and negative bullet points. -/
inductive EvidenceSource where
  | reviews : List Review → EvidenceSource
  | syntheticSummary : List String → List String → EvidenceSource
deriving DecidableEq

/-- Which evidence variant the ContextBuilder decides to use. -/
inductive SourceKind where
  | fromReviews
  | fromSynthetic
deriving DecidableEq

/-- Pipeline configuration: minimum review count (default 6), context
character budget, generation attempts per pass (default 2), and the
validation retry count for the Judge pass (default 1). -/
structure Config where
  minReviews : Nat
  contextBudget : Nat
  genAttempts : Nat
  validationRetries : Nat
deriving DecidableEq

/-- The default configuration from the spec. -/
def defaultConfig : Config :=
  { minReviews := 6, contextBudget := 4000, genAttempts := 2, validationRetries := 1 }

/-- Modelled from the spec: the error taxonomy of the pipeline. -/
inductive PipelineError where
  | notFound
  | insufficientEvidence
  | generation
  | validation
deriving DecidableEq

/-- Terminal artifact of the pipeline: the three verdict line bodies. -/
structure Verdict where
  pros : String
  cons : String
  recommendation : String
deriving DecidableEq

/-! ## OutputValidator (modelled from the spec) -/

inductive ValidationError where
  | wrongLineCount
  | badLabel
  | tooLong
  | emptyField
  | forbiddenTerm
deriving DecidableEq

/-- Boolean test that a line contains a forbidden source-attribution term
(the literals "Yelp" or "review"; containing "reviews" entails containing
"review"). -/
def forbiddenIn (l : List Char) : Bool :=
  hasSub "Yelp".data l || hasSub "review".data l

/-- Check one labeled line: label present, at most 200 characters,
non-empty after the label, no forbidden term.  Returns the body after the
label. -/
def checkLine (label line : String) : Except ValidationError String :=
  if !leadsWith label.data line.data then .error .badLabel
  else if 200 < line.length then .error .tooLong
  else if line.data.drop label.data.length = [] then .error .emptyField
  else if forbiddenIn line.data then .error .forbiddenTerm
  else .ok (String.mk (line.data.drop label.data.length))

/-- Check the three lines of the raw output in their fixed order. -/
def validate3 (l1 l2 l3 : String) : Except ValidationError Verdict :=
  match checkLine "Pros:" l1 with
  | .error e => .error e
  | .ok p =>
    match checkLine "Cons:" l2 with
    | .error e => .error e
    | .ok c =>
      match checkLine "Our verdict:" l3 with
      | .error e => .error e
      | .ok r => .ok ⟨p, c, r⟩

/-- Modelled from the spec: `validate(raw) -> Verdict | ValidationError`.
The core OutputValidator is not among the repository sources. -/
def validate (raw : String) : Except ValidationError Verdict :=
  match splitChar '\n' raw.data with
  | [l1, l2, l3] => validate3 (String.mk l1) (String.mk l2) (String.mk l3)
  | _ => .error .wrongLineCount

/-- Declarative acceptance condition for one labeled line, stated with
primitive list operations rather than the validator code. -/
def goodLine (label line : String) : Prop :=
  line.data.take label.data.length = label.data ∧
  label.length < line.length ∧
  line.length ≤ 200 ∧
  hasSub "Yelp".data line.data = false ∧
  hasSub "review".data line.data = false

/-- Declarative acceptance condition for the whole raw output: exactly
three lines, correctly labeled in fixed order, each within bounds. -/
def accepted (raw : String) : Prop :=
  ∃ l1 l2 l3 : List Char,
    splitChar '\n' raw.data = [l1, l2, l3] ∧
    goodLine "Pros:" (String.mk l1) ∧
    goodLine "Cons:" (String.mk l2) ∧
    goodLine "Our verdict:" (String.mk l3)

/-- Well-formedness of one verdict field: a non-empty single line of at
most 200 characters with no forbidden source-attribution term. -/
def fieldOk (s : String) : Prop :=
  s.data ≠ [] ∧
  s.length ≤ 200 ∧
  '\n' ∉ s.data ∧
  hasSub "Yelp".data s.data = false ∧
  hasSub "review".data s.data = false

/-- Well-formedness of a Verdict per the data-model constraints. -/
def verdictWellFormed (v : Verdict) : Prop :=
  fieldOk v.pros ∧ fieldOk v.cons ∧ fieldOk v.recommendation

/-! ## ContextBuilder (modelled from the spec) -/

/-- Modelled from the spec: the fallback rule of §4.1.  Real reviews are
selected exactly when there are at least `minReviews` of them and at least
one has non-empty text; otherwise the synthetic-summary path is taken.
Selection is a pure decision, made once per run. -/
def chooseSource (cfg : Config) (reviews : List Review) : SourceKind :=
  if cfg.minReviews ≤ reviews.length ∧ reviews.any (fun r => r.text != "") = true then
    .fromReviews
  else
    .fromSynthetic

/-- Modelled from the spec: build the evidence source.  `summary` is the
result of the external summarizer (`none` when unavailable).  A summarizer
result without exactly 3 positives and 3 negatives is a hard failure
(`InsufficientEvidenceError`); the builder never truncates or pads it. -/
def buildEvidence (cfg : Config) (summary : Option (List String × List String))
    (reviews : List Review) : Except PipelineError EvidenceSource :=
  match chooseSource cfg reviews with
  | .fromReviews => .ok (.reviews reviews)
  | .fromSynthetic =>
    match summary with
    | none => .error .insufficientEvidence
    | some (pos, neg) =>
      if pos.length = 3 ∧ neg.length = 3 then .ok (.syntheticSummary pos neg)
      else .error .insufficientEvidence

/-- Render the price level. -/
def renderPrice : PriceLevel → String
  | .one => "$"
  | .two => "$$"
  | .three => "$$$"
  | .four => "$$$$"
  | .unknown => "price unknown"

/-- Render a rating as `num/den`. -/
def renderRating (q : Rat) : String :=
  toString q.num ++ "/" ++ toString q.den

/-- Modelled from the spec: concatenate metadata fields in a fixed order
(name, rating, price, categories, address). -/
def renderMetadata (meta : BusinessMetadata) : String :=
  meta.name ++ " | " ++ renderRating meta.rating ++ " | " ++ renderPrice meta.price ++
    " | " ++ String.intercalate ", " meta.categories ++ " | " ++ meta.address

/-- Topic keywords used to pick representative reviews (food quality,
service, cleanliness, atmosphere). -/
def keywordList : List (List Char) :=
  ["food".data, "service".data, "clean".data, "atmosphere".data]

/-- A review is representative when its text mentions a topic keyword. -/
def isRepresentative (r : Review) : Bool :=
  keywordList.any (fun k => hasSub k r.text.data)

/-- Modelled from the spec: select the most representative reviews, else
fall back to the first `minReviews` in input order. -/
def selectReviews (cfg : Config) (reviews : List Review) : List Review :=
  let hits := reviews.filter isRepresentative
  if hits.isEmpty then reviews.take cfg.minReviews else hits

/-- Render the evidence body of the context. -/
def renderEvidence (cfg : Config) : EvidenceSource → String
  | .reviews rs =>
    String.intercalate "\n"
      ((selectReviews cfg rs).map fun r => renderRating r.rating ++ ": " ++ r.text)
  | .syntheticSummary pos neg =>
    "Positives: " ++ String.intercalate "; " pos ++
      "\nNegatives: " ++ String.intercalate "; " neg

/-- Modelled from the spec: render the bounded context.  Metadata comes
first and is never truncated; the evidence body is truncated from its end
to fit the remaining budget. -/
def renderContext (cfg : Config) (meta : BusinessMetadata) (ev : EvidenceSource) : String :=
  let metaStr := renderMetadata meta
  metaStr ++ truncateTo (cfg.contextBudget - metaStr.length) (renderEvidence cfg ev)

/-! ## AgentOrchestrator (modelled from the spec) -/

/-- The three debate roles. -/
inductive Role where
  | optimistic
  | critical
  | judge
deriving DecidableEq

/-- An external generation oracle: role, context, prior opinions, attempt
index, returning `none` on a generation failure (timeouts count as
generation failures). -/
abbrev Gen : Type :=
  Role → String → List String → Nat → Option String

/-- One recorded external generation call. -/
structure GenCall where
  role : Role
  priors : List String
  idx : Nat
  result : Option String
deriving DecidableEq

/-- Modelled from the spec: bounded retry of one generation pass.  Tries
attempt indices `base, base+1, ...` until a result is produced or `fuel`
attempts are exhausted; records every call. -/
def genLoop (g : Gen) (role : Role) (ctx : String) (priors : List String) :
    Nat → Nat → List GenCall × Option String
  | _, 0 => ([], none)
  | base, fuel + 1 =>
    match g role ctx priors base with
    | some t => ([⟨role, priors, base, some t⟩], some t)
    | none =>
      let rest := genLoop g role ctx priors (base + 1) fuel
      (⟨role, priors, base, none⟩ :: rest.1, rest.2)

/-- Modelled from the spec: the Judge pass with bounded validation retry.
Each round generates (with generation retries) and validates; an invalid
output consumes one round; rounds exhausted means a fatal
ValidationError. -/
def judgeRounds (cfg : Config) (g : Gen) (ctx : String) (priors : List String) :
    Nat → Nat → List GenCall × Except PipelineError Verdict
  | _, 0 => ([], .error .validation)
  | base, fuel + 1 =>
    let att := genLoop g .judge ctx priors base cfg.genAttempts
    match att.2 with
    | none => (att.1, .error .generation)
    | some raw =>
      match validate raw with
      | .ok v => (att.1, .ok v)
      | .error _ =>
        let rest := judgeRounds cfg g ctx priors (base + cfg.genAttempts) fuel
        (att.1 ++ rest.1, rest.2)

/-- The stages of the orchestrator state machine. -/
inductive Stage where
  | start
  | optimisticDone
  | criticalDone
  | judgeDone
  | failed
deriving DecidableEq

deriving instance DecidableEq for Except

/-- The record of one orchestrator run: every external generation call in
order, the traversed stage sequence, and the outcome. -/
structure RunLog where
  calls : List GenCall
  stages : List Stage
  result : Except PipelineError Verdict
deriving DecidableEq

/-- The Optimistic pass of a run: its calls and its produced text. -/
def optRun (cfg : Config) (g : Gen) (ctx : String) : List GenCall × Option String :=
  genLoop g .optimistic ctx [] 0 cfg.genAttempts

/-- The Critical pass of a run: its calls and its produced text.  It is
invoked with no prior opinions — it never sees the Optimistic text. -/
def critRun (cfg : Config) (g : Gen) (ctx : String) : List GenCall × Option String :=
  genLoop g .critical ctx [] 0 cfg.genAttempts

/-- Modelled from the spec: the strict three-stage debate.  Optimistic,
then Critical (each seeing only the context), then the Judge pass seeing
the context and both opinions; any external-call failure moves the run to
`failed` with no partial-verdict recovery. -/
def orchestrate (cfg : Config) (g : Gen) (ctx : String) : RunLog :=
  match (optRun cfg g ctx).2 with
  | none => ⟨(optRun cfg g ctx).1, [.start, .failed], .error .generation⟩
  | some optText =>
    match (critRun cfg g ctx).2 with
    | none =>
      ⟨(optRun cfg g ctx).1 ++ (critRun cfg g ctx).1,
        [.start, .optimisticDone, .failed], .error .generation⟩
    | some critText =>
      match (judgeRounds cfg g ctx [optText, critText] 0 (cfg.validationRetries + 1)).2 with
      | .ok v =>
        ⟨(optRun cfg g ctx).1 ++ (critRun cfg g ctx).1 ++
            (judgeRounds cfg g ctx [optText, critText] 0 (cfg.validationRetries + 1)).1,
          [.start, .optimisticDone, .criticalDone, .judgeDone], .ok v⟩
      | .error e =>
        ⟨(optRun cfg g ctx).1 ++ (critRun cfg g ctx).1 ++
            (judgeRounds cfg g ctx [optText, critText] 0 (cfg.validationRetries + 1)).1,
          [.start, .optimisticDone, .criticalDone, .failed], .error e⟩

/-! ## The full pipeline -/

/-- The external collaborators of the core, as abstract contracts:
metadata fetch (`none` models NotFoundError), review fetch, the
summarizer (`none` models SummaryUnavailableError), and the generation
backend. -/
structure External where
  fetchMetadata : String → Option BusinessMetadata
  fetchReviews : String → List Review
  summarize : BusinessMetadata → Option (List String × List String)
  gen : Gen

/-- Modelled from the spec: `Evaluate(business_id) -> Verdict |
PipelineError`, the single operation the core exposes. -/
def evaluate (cfg : Config) (ext : External) (businessId : String) :
    Except PipelineError Verdict :=
  match ext.fetchMetadata businessId with
  | none => .error .notFound
  | some meta =>
    match buildEvidence cfg (ext.summarize meta) (ext.fetchReviews businessId) with
    | .error e => .error e
    | .ok ev => (orchestrate cfg ext.gen (renderContext cfg meta ev)).result

/-! ## Concrete sample inputs used to exercise the theorems -/

/-- A sample business whose rendered metadata is longer than a tiny budget. -/
def metaLong : BusinessMetadata :=
  ⟨"An Extremely Long Restaurant Name", 4, .two, ["pizza"], "1 Main Street"⟩

/-- A configuration with a context budget smaller than any metadata. -/
def cfgTiny : Config :=
  { minReviews := 6, contextBudget := 5, genAttempts := 2, validationRetries := 1 }

/-- A sample synthetic summary evidence source. -/
def evTiny : EvidenceSource :=
  .syntheticSummary ["a", "b", "c"] ["d", "e", "f"]

/-- Scenario C collaborators: a business with no reviews whose summarizer
returns 2 positives and 3 negatives. -/
def extScenC : External :=
  { fetchMetadata := fun _ => some metaLong,
    fetchReviews := fun _ => [],
    summarize := fun _ => some (["p1", "p2"], ["n1", "n2", "n3"]),
    gen := fun _ _ _ _ => some "unused" }

/-- A generation oracle whose Optimistic text is `optimistic A`. -/
def genWitA : Gen := fun r _ _ _ =>
  match r with
  | .optimistic => some "optimistic A"
  | .critical => some "critical text"
  | .judge => some "Pros: a\nCons: b\nOur verdict: c"

/-- The same oracle as `genWitA` except for the Optimistic text. -/
def genWitB : Gen := fun r _ _ _ =>
  match r with
  | .optimistic => some "optimistic B"
  | .critical => some "critical text"
  | .judge => some "Pros: a\nCons: b\nOur verdict: c"

/-- An oracle whose Judge output never validates. -/
def genBadJudge : Gen := fun r _ _ _ =>
  match r with
  | .optimistic => some "opt"
  | .critical => some "crit"
  | .judge => some "no labels here"

/-- An oracle for which every generation call fails. -/
def genFailAll : Gen := fun _ _ _ _ => none

/-- Collaborators for an unknown business. -/
def extNotFound : External :=
  { fetchMetadata := fun _ => none,
    fetchReviews := fun _ => [],
    summarize := fun _ => none,
    gen := fun _ _ _ _ => none }

/-- Collaborators for a fully successful run: six substantive reviews and
a Judge output that validates. -/
def extGood : External :=
  { fetchMetadata := fun _ => some metaLong,
    fetchReviews := fun _ =>
      [⟨5, "great food"⟩, ⟨4, "nice service"⟩, ⟨3, "clean place"⟩,
       ⟨4, "good atmosphere"⟩, ⟨5, "tasty food"⟩, ⟨4, "friendly staff"⟩],
    summarize := fun _ => none,
    gen := fun r _ _ _ =>
      match r with
      | .optimistic => some "opt"
      | .critical => some "crit"
      | .judge => some "Pros: tasty\nCons: loud\nOur verdict: go early" }

/-! ## Home screen (embedded from Yelp-mobile/screens/Home.jsx) -/

/-- A navigation action raised by a press handler. -/
inductive NavAction where
  | navigate : String → NavAction

mutual
/-- A rendered React Native element, restricted to the constructs the Home
screen uses. -/
inductive UIElement where
  | view : UIList → UIElement
  | textNode : String → UIElement
  | statusBar : UIElement
  | imageNode : String → UIElement
  | touchable : NavAction → UIList → UIElement
  | loadingScreen : Bool → UIElement

/-- A list of child elements. -/
inductive UIList where
  | nil : UIList
  | cons : UIElement → UIList → UIList
end

/-- Convert a Lean list of elements into a `UIList`. -/
def uiList : List UIElement → UIList
  | [] => .nil
  | e :: es => .cons e (uiList es)

/-- The AppContext value the Home screen reads.  Only `isLoading` is
destructured by the component; any other provider values are modelled
abstractly as a key-value list. -/
structure AppContext where
  isLoading : Bool
  otherValues : List (String × String)

/-- The Home screen component, embedded from the source: a status bar, the
always-rendered LoadingScreen overlay driven by `isLoading`, the three
title texts, the single `Get Started` button whose press handler navigates
to `AddPhoto`, and the row of three images. -/
def Home (ctx : AppContext) : UIElement :=
  .view (uiList
    [ .statusBar,
      .loadingScreen ctx.isLoading,
      .view (uiList
        [ .textNode "Welcome to WTF",
          .textNode "(Where is The Food)",
          .textNode "From your social media feed, to your plate",
          .touchable (.navigate "AddPhoto") (uiList [.textNode "Get Started"]),
          .view (uiList
            [ .imageNode "pizza.png",
              .imageNode "burger.png",
              .imageNode "roasted-chicken.png" ]) ]) ])

mutual
/-- Every navigation target reachable from an element, in render order. -/
def navTargets : UIElement → List String
  | .view cs => navTargetsL cs
  | .touchable (.navigate t) cs => t :: navTargetsL cs
  | .textNode _ => []
  | .statusBar => []
  | .imageNode _ => []
  | .loadingScreen _ => []

/-- Every navigation target reachable from a child list. -/
def navTargetsL : UIList → List String
  | .nil => []
  | .cons e es => navTargets e ++ navTargetsL es
end

mutual
/-- The number of pressable elements in an element tree. -/
def touchCount : UIElement → Nat
  | .view cs => touchCountL cs
  | .touchable _ cs => 1 + touchCountL cs
  | .textNode _ => 0
  | .statusBar => 0
  | .imageNode _ => 0
  | .loadingScreen _ => 0

/-- The number of pressable elements in a child list. -/
def touchCountL : UIList → Nat
  | .nil => 0
  | .cons e es => touchCount e + touchCountL es
end

mutual
/-- The visibility flags of every LoadingScreen overlay in a tree. -/
def loadingFlags : UIElement → List Bool
  | .view cs => loadingFlagsL cs
  | .touchable _ cs => loadingFlagsL cs
  | .textNode _ => []
  | .statusBar => []
  | .imageNode _ => []
  | .loadingScreen b => [b]

/-- The visibility flags of every LoadingScreen overlay in a child list. -/
def loadingFlagsL : UIList → List Bool
  | .nil => []
  | .cons e es => loadingFlags e ++ loadingFlagsL es
end

/-! ## Utility lemmas -/

theorem leadsWith_iff_take : ∀ p l : List Char, leadsWith p l = true ↔ l.take p.length = p
  | [], l => by simp [leadsWith]
  | p :: ps, [] => by simp [leadsWith]
  | p :: ps, c :: cs => by
    simp only [leadsWith, Bool.and_eq_true, beq_iff_eq, List.length_cons,
      List.take_succ_cons, List.cons.injEq]
    rw [leadsWith_iff_take ps cs]
    constructor
    · rintro ⟨h1, h2⟩; exact ⟨h1.symm, h2⟩
    · rintro ⟨h1, h2⟩; exact ⟨h1.symm, h2⟩

theorem splitChar_ne_nil (sep : Char) (l : List Char) : splitChar sep l ≠ [] := by
  induction l with
  | nil => simp [splitChar]
  | cons c cs ih =>
    simp only [splitChar]
    by_cases h : c = sep
    · simp [h]
    · simp only [if_neg h]
      cases hc : splitChar sep cs with
      | nil => simp
      | cons x xs => simp

theorem mem_splitChar_not_mem (sep : Char) (l : List Char) :
    ∀ chunk ∈ splitChar sep l, sep ∉ chunk := by
  induction l with
  | nil => intro chunk h; simp [splitChar] at h; simp [h]
  | cons c cs ih =>
    intro chunk h
    simp only [splitChar] at h
    by_cases hc : c = sep
    · rw [if_pos hc] at h
      rcases List.mem_cons.mp h with h1 | h1
      · simp [h1]
      · exact ih chunk h1
    · rw [if_neg hc] at h
      cases hs : splitChar sep cs with
      | nil => exact absurd hs (splitChar_ne_nil sep cs)
      | cons x xs =>
        rw [hs] at h
        rcases List.mem_cons.mp h with h1 | h1
        · subst h1
          intro hmem
          rcases List.mem_cons.mp hmem with h2 | h2
          · exact hc h2.symm
          · have := ih x (by rw [hs]; exact List.mem_cons_self x xs)
            exact this h2
        · exact ih chunk (by rw [hs]; exact List.mem_cons_of_mem x h1)

/-- If `pat` does not occur in `l`, it does not occur in any tail of `l`. -/
theorem hasSub_drop_eq_false (pat l : List Char) (h : hasSub pat l = false) :
    ∀ n, hasSub pat (l.drop n) = false := by
  intro n
  induction n generalizing l with
  | zero => simpa using h
  | succ k ih =>
    cases l with
    | nil => simpa using h
    | cons c cs =>
      simp only [hasSub, Bool.or_eq_false_iff] at h
      exact ih cs h.2

theorem string_length_append (a b : String) : (a ++ b).length = a.length + b.length := by
  cases a with
  | mk da =>
    cases b with
    | mk db =>
      show List.length (da ++ db) = da.length + db.length
      exact List.length_append da db

theorem truncateTo_length (n : Nat) (s : String) :
    (truncateTo n s).length = min n s.length := by
  cases s with
  | mk d =>
    show List.length (d.take n) = min n d.length
    exact List.length_take n d

/-! ## OutputValidator theorems -/

theorem checkLine_ok_iff (label line : String) :
    (∃ b, checkLine label line = .ok b) ↔ goodLine label line := by
  unfold checkLine goodLine
  split_ifs with h1 h2 h3 h4
  · constructor
    · rintro ⟨b, hb⟩; exact absurd hb (by simp)
    · rintro ⟨ht, -⟩
      have := (leadsWith_iff_take label.data line.data).mpr ht
      simp [this] at h1
  · constructor
    · rintro ⟨b, hb⟩; exact absurd hb (by simp)
    · rintro ⟨-, -, h200, -⟩; omega
  · constructor
    · rintro ⟨b, hb⟩; exact absurd hb (by simp)
    · rintro ⟨-, hlt, -⟩
      rw [List.drop_eq_nil_iff] at h3
      have hle : line.length ≤ label.length := h3
      omega
  · constructor
    · rintro ⟨b, hb⟩; exact absurd hb (by simp)
    · rintro ⟨-, -, -, hy, hr⟩
      simp [forbiddenIn, hy, hr] at h4
  · constructor
    · intro _
      refine ⟨?_, ?_, ?_, ?_, ?_⟩
      · exact (leadsWith_iff_take _ _).mp (by simpa using h1)
      · have h3l : ¬ line.data.length ≤ label.data.length :=
          fun hle => h3 (List.drop_eq_nil_iff.mpr hle)
        have : label.data.length < line.data.length := by omega
        exact this
      · omega
      · have h4f : forbiddenIn line.data = false := by simpa using h4
        exact (Bool.or_eq_false_iff.mp h4f).1
      · have h4f : forbiddenIn line.data = false := by simpa using h4
        exact (Bool.or_eq_false_iff.mp h4f).2
    · intro _; exact ⟨_, rfl⟩

theorem validate3_ok_iff (l1 l2 l3 : String) :
    (∃ v, validate3 l1 l2 l3 = .ok v) ↔
      goodLine "Pros:" l1 ∧ goodLine "Cons:" l2 ∧ goodLine "Our verdict:" l3 := by
  unfold validate3
  constructor
  · rintro ⟨v, hv⟩
    rcases hp : checkLine "Pros:" l1 with e | p
    · simp only [hp] at hv
      exact Except.noConfusion hv
    · rcases hc : checkLine "Cons:" l2 with e | c
      · simp only [hp, hc] at hv
        exact Except.noConfusion hv
      · rcases hr : checkLine "Our verdict:" l3 with e | r
        · simp only [hp, hc, hr] at hv
          exact Except.noConfusion hv
        · exact ⟨(checkLine_ok_iff _ _).mp ⟨p, hp⟩, (checkLine_ok_iff _ _).mp ⟨c, hc⟩,
            (checkLine_ok_iff _ _).mp ⟨r, hr⟩⟩
  · rintro ⟨g1, g2, g3⟩
    obtain ⟨p, hp⟩ := (checkLine_ok_iff "Pros:" l1).mpr g1
    obtain ⟨c, hc⟩ := (checkLine_ok_iff "Cons:" l2).mpr g2
    obtain ⟨r, hr⟩ := (checkLine_ok_iff "Our verdict:" l3).mpr g3
    exact ⟨⟨p, c, r⟩, by simp only [hp, hc, hr]⟩

/-- C2: OutputValidator.validate returns a structured Verdict exactly when
the raw string consists of exactly three labeled lines with case-sensitive
label prefixes `Pros:`, `Cons:`, `Our verdict:` in that fixed order, each
line non-empty after the label, each line at most 200 characters, and no
line containing a forbidden source-attribution term; every other input
(missing label, swapped order, duplicated label, over-long line, forbidden
term, wrong line count) yields a ValidationError. -/
theorem validate_ok_iff_accepted (raw : String) :
    (∃ v, validate raw = .ok v) ↔ accepted raw := by
  unfold validate accepted
  cases hs : splitChar '\n' raw.data with
  | nil => exact absurd hs (splitChar_ne_nil '\n' raw.data)
  | cons a t1 =>
    cases t1 with
    | nil =>
      constructor
      · rintro ⟨v, hv⟩; exact Except.noConfusion hv
      · rintro ⟨l1, l2, l3, hl, -⟩
        simp at hl
    | cons b t2 =>
      cases t2 with
      | nil =>
        constructor
        · rintro ⟨v, hv⟩; exact Except.noConfusion hv
        · rintro ⟨l1, l2, l3, hl, -⟩
          simp at hl
      | cons c t3 =>
        cases t3 with
        | nil =>
          rw [validate3_ok_iff]
          constructor
          · rintro ⟨g1, g2, g3⟩
            exact ⟨a, b, c, rfl, g1, g2, g3⟩
          · rintro ⟨l1, l2, l3, hl, g1, g2, g3⟩
            simp only [List.cons.injEq, and_true] at hl
            obtain ⟨e1, e2, e3⟩ := hl
            subst e1; subst e2; subst e3
            exact ⟨g1, g2, g3⟩
        | cons d t4 =>
          constructor
          · rintro ⟨v, hv⟩; exact Except.noConfusion hv
          · rintro ⟨l1, l2, l3, hl, -⟩
            simp at hl

/-! ## ContextBuilder theorems -/

theorem any_text_iff (reviews : List Review) :
    (reviews.any fun r => r.text != "") = true ↔ ∃ r ∈ reviews, r.text ≠ "" := by
  simp [List.any_eq_true]

theorem chooseSource_reviews_iff (cfg : Config) (reviews : List Review) :
    chooseSource cfg reviews = .fromReviews ↔
      cfg.minReviews ≤ reviews.length ∧ ∃ r ∈ reviews, r.text ≠ "" := by
  unfold chooseSource
  split_ifs with h
  · simp only [true_iff]
    exact ⟨h.1, (any_text_iff reviews).mp h.2⟩
  · constructor
    · intro hx; exact absurd hx (by simp)
    · rintro ⟨h1, h2⟩
      exact absurd ⟨h1, (any_text_iff reviews).mpr h2⟩ h

theorem chooseSource_synthetic_iff (cfg : Config) (reviews : List Review) :
    chooseSource cfg reviews = .fromSynthetic ↔
      ¬ (cfg.minReviews ≤ reviews.length ∧ ∃ r ∈ reviews, r.text ≠ "") := by
  unfold chooseSource
  split_ifs with h
  · constructor
    · intro hx; exact absurd hx (by simp)
    · intro hn
      exact absurd ⟨h.1, (any_text_iff reviews).mp h.2⟩ hn
  · simp only [true_iff]
    rintro ⟨h1, h2⟩
    exact h ⟨h1, (any_text_iff reviews).mpr h2⟩

theorem buildEvidence_reviews_of_choose (cfg : Config)
    (summary : Option (List String × List String)) (reviews : List Review)
    (h : chooseSource cfg reviews = .fromReviews) :
    buildEvidence cfg summary reviews = .ok (.reviews reviews) := by
  unfold buildEvidence
  rw [h]

theorem buildEvidence_not_reviews_of_synthetic (cfg : Config)
    (summary : Option (List String × List String)) (reviews : List Review)
    (h : chooseSource cfg reviews = .fromSynthetic) :
    buildEvidence cfg summary reviews ≠ .ok (.reviews reviews) := by
  unfold buildEvidence
  rw [h]
  intro hok
  cases summary with
  | none => exact Except.noConfusion hok
  | some pr =>
    obtain ⟨pos, neg⟩ := pr
    have hok' : (if pos.length = 3 ∧ neg.length = 3
        then (Except.ok (EvidenceSource.syntheticSummary pos neg) :
            Except PipelineError EvidenceSource)
        else .error .insufficientEvidence) = .ok (.reviews reviews) := hok
    by_cases h3 : pos.length = 3 ∧ neg.length = 3
    · rw [if_pos h3] at hok'
      injection hok' with h'
      exact EvidenceSource.noConfusion h'
    · rw [if_neg h3] at hok'
      exact Except.noConfusion hok'

/-- C1: the ContextBuilder selects the Reviews evidence variant if and
only if the ReviewSet has at least `minReviews` elements (default 6) and
at least one review has non-empty text; for every other ReviewSet the
synthetic-summary path is selected.  Selection also depends on the
presence of non-empty review text, not on the set size alone. -/
theorem build_selects_reviews_iff (cfg : Config)
    (summary : Option (List String × List String)) (reviews : List Review) :
    (buildEvidence cfg summary reviews = .ok (.reviews reviews) ↔
      cfg.minReviews ≤ reviews.length ∧ ∃ r ∈ reviews, r.text ≠ "") ∧
    (chooseSource cfg reviews = .fromSynthetic ↔
      ¬ (cfg.minReviews ≤ reviews.length ∧ ∃ r ∈ reviews, r.text ≠ "")) ∧
    defaultConfig.minReviews = 6 := by
  refine ⟨⟨?_, ?_⟩, chooseSource_synthetic_iff cfg reviews, rfl⟩
  · intro hok
    by_contra hn
    have hsyn := (chooseSource_synthetic_iff cfg reviews).mpr hn
    exact buildEvidence_not_reviews_of_synthetic cfg summary reviews hsyn hok
  · intro hc
    exact buildEvidence_reviews_of_choose cfg summary reviews
      ((chooseSource_reviews_iff cfg reviews).mpr hc)

/-- C3: when the synthetic-summary path is taken and the summarizer result
does not have exactly 3 positives and 3 negatives, the builder fails with
InsufficientEvidenceError (no truncation or padding), the whole run fails
with that error, and no Verdict is produced. -/
theorem synthetic_count_failure (cfg : Config) (ext : External) (bid : String)
    (meta : BusinessMetadata) (pos neg : List String)
    (hmeta : ext.fetchMetadata bid = some meta)
    (hsumm : ext.summarize meta = some (pos, neg))
    (hchoose : chooseSource cfg (ext.fetchReviews bid) = .fromSynthetic)
    (hcount : ¬ (pos.length = 3 ∧ neg.length = 3)) :
    buildEvidence cfg (some (pos, neg)) (ext.fetchReviews bid) =
      .error .insufficientEvidence ∧
    evaluate cfg ext bid = .error .insufficientEvidence ∧
    ∀ v, evaluate cfg ext bid ≠ .ok v := by
  have hbuild : buildEvidence cfg (some (pos, neg)) (ext.fetchReviews bid) =
      .error .insufficientEvidence := by
    unfold buildEvidence
    rw [hchoose]
    show (if pos.length = 3 ∧ neg.length = 3
      then (Except.ok (EvidenceSource.syntheticSummary pos neg) :
          Except PipelineError EvidenceSource)
      else .error .insufficientEvidence) = .error .insufficientEvidence
    exact if_neg hcount
  have heval : evaluate cfg ext bid = .error .insufficientEvidence := by
    unfold evaluate
    rw [hmeta]
    show (match buildEvidence cfg (ext.summarize meta) (ext.fetchReviews bid) with
      | .error e => (Except.error e : Except PipelineError Verdict)
      | .ok ev => (orchestrate cfg ext.gen (renderContext cfg meta ev)).result) =
        .error .insufficientEvidence
    rw [hsumm, hbuild]
  refine ⟨hbuild, heval, ?_⟩
  intro v hv
  rw [heval] at hv
  exact Except.noConfusion hv

/-- Witness for C3: scenario C — a business with 0 reviews and a
summarizer returning 2 positives and 3 negatives fails with
InsufficientEvidenceError. -/
theorem synthetic_count_failure_witness :
    evaluate defaultConfig extScenC "biz" = .error .insufficientEvidence :=
  (synthetic_count_failure defaultConfig extScenC "biz" metaLong
    ["p1", "p2"] ["n1", "n2", "n3"] rfl rfl (by decide) (by decide)).2.1

set_option maxRecDepth 10000 in
/-- Counterexample to C5 as stated: with the spec's truncation policy of
never removing metadata, a metadata rendering longer than the configured
budget forces the rendered Context over the budget. -/
theorem renderContext_budget_counterexample :
    cfgTiny.contextBudget < (renderContext cfgTiny metaLong evTiny).length := by
  decide

/-- C5 (amended): provided the rendered metadata fits within the budget,
the rendered Context never exceeds the configured character budget, the
metadata is kept in full, and truncation only removes characters from the
end of the evidence body. -/
theorem renderContext_budget (cfg : Config) (meta : BusinessMetadata)
    (ev : EvidenceSource) (hm : (renderMetadata meta).length ≤ cfg.contextBudget) :
    (renderContext cfg meta ev).length ≤ cfg.contextBudget ∧
    ∃ body rest : List Char,
      renderContext cfg meta ev = renderMetadata meta ++ String.mk body ∧
      (renderEvidence cfg ev).data = body ++ rest := by
  constructor
  · show (renderMetadata meta ++
      truncateTo (cfg.contextBudget - (renderMetadata meta).length)
        (renderEvidence cfg ev)).length ≤ cfg.contextBudget
    rw [string_length_append, truncateTo_length]
    omega
  · refine ⟨(renderEvidence cfg ev).data.take
        (cfg.contextBudget - (renderMetadata meta).length),
      (renderEvidence cfg ev).data.drop
        (cfg.contextBudget - (renderMetadata meta).length), rfl, ?_⟩
    exact (List.take_append_drop _ _).symm

/-! ## AgentOrchestrator lemmas -/

theorem genLoop_calls (g : Gen) (role : Role) (ctx : String) (priors : List String) :
    ∀ fuel base, ∀ call ∈ (genLoop g role ctx priors base fuel).1,
      call.role = role ∧ call.priors = priors := by
  intro fuel
  induction fuel with
  | zero => intro base call h; simp [genLoop] at h
  | succ n ih =>
    intro base call h
    simp only [genLoop] at h
    cases hg : g role ctx priors base with
    | some t =>
      rw [hg] at h
      simp at h
      subst h
      exact ⟨rfl, rfl⟩
    | none =>
      rw [hg] at h
      simp at h
      rcases h with h | h
      · subst h; exact ⟨rfl, rfl⟩
      · exact ih (base + 1) call h

theorem genLoop_some_src (g : Gen) (role : Role) (ctx : String) (priors : List String) :
    ∀ fuel base t, (genLoop g role ctx priors base fuel).2 = some t →
      ∃ i, g role ctx priors i = some t := by
  intro fuel
  induction fuel with
  | zero => intro base t h; simp [genLoop] at h
  | succ n ih =>
    intro base t h
    simp only [genLoop] at h
    cases hg : g role ctx priors base with
    | some u =>
      rw [hg] at h
      simp at h
      exact ⟨base, by rw [hg, h]⟩
    | none =>
      rw [hg] at h
      simp at h
      exact ih (base + 1) t h

theorem genLoop_imm (g : Gen) (role : Role) (ctx : String) (priors : List String)
    (base n : Nat) (h : (g role ctx priors base).isSome) :
    genLoop g role ctx priors base (n + 1) =
      ([⟨role, priors, base, g role ctx priors base⟩], g role ctx priors base) := by
  cases hg : g role ctx priors base with
  | none => rw [hg] at h; simp at h
  | some t => simp [genLoop, hg]

theorem genLoop_congr (g₁ g₂ : Gen) (role : Role) (ctx : String) (priors : List String)
    (h : ∀ i, g₁ role ctx priors i = g₂ role ctx priors i) :
    ∀ fuel base, genLoop g₁ role ctx priors base fuel = genLoop g₂ role ctx priors base fuel := by
  intro fuel
  induction fuel with
  | zero => intro base; simp [genLoop]
  | succ n ih =>
    intro base
    simp only [genLoop, h base, ih (base + 1)]

theorem judgeRounds_calls (cfg : Config) (g : Gen) (ctx : String) (priors : List String) :
    ∀ fuel base, ∀ call ∈ (judgeRounds cfg g ctx priors base fuel).1,
      call.role = .judge ∧ call.priors = priors := by
  intro fuel
  induction fuel with
  | zero => intro base call h; simp [judgeRounds] at h
  | succ n ih =>
    intro base call h
    simp only [judgeRounds] at h
    cases hg : (genLoop g .judge ctx priors base cfg.genAttempts).2 with
    | none =>
      rw [hg] at h
      simp at h
      exact genLoop_calls g .judge ctx priors cfg.genAttempts base call h
    | some raw =>
      rw [hg] at h
      cases hv : validate raw with
      | ok v =>
        simp [hv] at h
        exact genLoop_calls g .judge ctx priors cfg.genAttempts base call h
      | error e =>
        simp [hv] at h
        rcases h with h | h
        · exact genLoop_calls g .judge ctx priors cfg.genAttempts base call h
        · exact ih (base + cfg.genAttempts) call h

theorem judgeRounds_ok_validated (cfg : Config) (g : Gen) (ctx : String)
    (priors : List String) :
    ∀ fuel base v, (judgeRounds cfg g ctx priors base fuel).2 = .ok v →
      ∃ raw, validate raw = .ok v ∧ ∃ i, g .judge ctx priors i = some raw := by
  intro fuel
  induction fuel with
  | zero => intro base v h; simp [judgeRounds] at h
  | succ n ih =>
    intro base v h
    simp only [judgeRounds] at h
    cases hg : (genLoop g .judge ctx priors base cfg.genAttempts).2 with
    | none =>
      rw [hg] at h
      simp at h
    | some raw =>
      rw [hg] at h
      cases hv : validate raw with
      | ok w =>
        simp [hv] at h
        subst h
        exact ⟨raw, hv, genLoop_some_src g .judge ctx priors cfg.genAttempts base raw hg⟩
      | error e =>
        simp [hv] at h
        exact ih (base + cfg.genAttempts) v h

theorem judgeRounds_all_invalid (cfg : Config) (g : Gen) (ctx : String)
    (priors : List String) (hga : 0 < cfg.genAttempts)
    (hgen : ∀ i, (g .judge ctx priors i).isSome)
    (hbad : ∀ i raw, g .judge ctx priors i = some raw → ∀ v, validate raw ≠ .ok v) :
    ∀ fuel base, (judgeRounds cfg g ctx priors base fuel).2 = .error .validation ∧
      (judgeRounds cfg g ctx priors base fuel).1.length = fuel := by
  intro fuel
  induction fuel with
  | zero => intro base; simp [judgeRounds]
  | succ n ih =>
    intro base
    cases hgb : g .judge ctx priors base with
    | none =>
      have hs := hgen base
      rw [hgb] at hs
      simp at hs
    | some raw =>
      obtain ⟨m, hm⟩ : ∃ m, cfg.genAttempts = m + 1 := ⟨cfg.genAttempts - 1, by omega⟩
      have himm : genLoop g .judge ctx priors base cfg.genAttempts =
          ([⟨.judge, priors, base, some raw⟩], some raw) := by
        rw [hm, genLoop_imm g .judge ctx priors base m (by rw [hgb]; rfl), hgb]
      obtain ⟨e, he⟩ : ∃ e, validate raw = .error e := by
        cases hvv : validate raw with
        | ok v => exact absurd hvv (hbad base raw hgb v)
        | error e => exact ⟨e, rfl⟩
      have hrest := ih (base + cfg.genAttempts)
      simp only [judgeRounds, himm, he]
      exact ⟨hrest.1, by simp [hrest.2]⟩

theorem filter_role_all (r : Role) : ∀ l : List GenCall, (∀ x ∈ l, x.role = r) →
    l.filter (fun c => c.role == r) = l
  | [], _ => rfl
  | c :: cs, h => by
    have hc : c.role = r := h c (List.mem_cons_self c cs)
    simp [List.filter_cons, hc,
      filter_role_all r cs (fun x hx => h x (List.mem_cons_of_mem c hx))]

theorem filter_role_none (r r' : Role) (hne : r' ≠ r) : ∀ l : List GenCall,
    (∀ x ∈ l, x.role = r') → l.filter (fun c => c.role == r) = []
  | [], _ => rfl
  | c :: cs, h => by
    have hc : c.role = r' := h c (List.mem_cons_self c cs)
    have hb : (c.role == r) = false := by simp [hc]; exact hne
    simp [List.filter_cons, hb,
      filter_role_none r r' hne cs (fun x hx => h x (List.mem_cons_of_mem c hx))]

theorem orchestrate_optFail (cfg : Config) (g : Gen) (ctx : String)
    (hopt : (optRun cfg g ctx).2 = none) :
    orchestrate cfg g ctx =
      ⟨(optRun cfg g ctx).1, [.start, .failed], .error .generation⟩ := by
  unfold orchestrate
  simp only [hopt]

theorem orchestrate_critFail (cfg : Config) (g : Gen) (ctx : String) (ot : String)
    (hopt : (optRun cfg g ctx).2 = some ot)
    (hcrit : (critRun cfg g ctx).2 = none) :
    orchestrate cfg g ctx =
      ⟨(optRun cfg g ctx).1 ++ (critRun cfg g ctx).1,
        [.start, .optimisticDone, .failed], .error .generation⟩ := by
  unfold orchestrate
  simp only [hopt, hcrit]

theorem orchestrate_judgeOk (cfg : Config) (g : Gen) (ctx : String) (ot ct : String)
    (v : Verdict) (hopt : (optRun cfg g ctx).2 = some ot)
    (hcrit : (critRun cfg g ctx).2 = some ct)
    (hj : (judgeRounds cfg g ctx [ot, ct] 0 (cfg.validationRetries + 1)).2 = .ok v) :
    orchestrate cfg g ctx =
      ⟨(optRun cfg g ctx).1 ++ (critRun cfg g ctx).1 ++
          (judgeRounds cfg g ctx [ot, ct] 0 (cfg.validationRetries + 1)).1,
        [.start, .optimisticDone, .criticalDone, .judgeDone], .ok v⟩ := by
  unfold orchestrate
  simp only [hopt, hcrit, hj]

theorem orchestrate_judgeErr (cfg : Config) (g : Gen) (ctx : String) (ot ct : String)
    (e : PipelineError) (hopt : (optRun cfg g ctx).2 = some ot)
    (hcrit : (critRun cfg g ctx).2 = some ct)
    (hj : (judgeRounds cfg g ctx [ot, ct] 0 (cfg.validationRetries + 1)).2 = .error e) :
    orchestrate cfg g ctx =
      ⟨(optRun cfg g ctx).1 ++ (critRun cfg g ctx).1 ++
          (judgeRounds cfg g ctx [ot, ct] 0 (cfg.validationRetries + 1)).1,
        [.start, .optimisticDone, .criticalDone, .failed], .error e⟩ := by
  unfold orchestrate
  simp only [hopt, hcrit, hj]

/-- C4: the Judge pass is never invoked before both the Optimistic and the
Critical passes have completed; the reachable stage sequences are exactly
the prefixes of Start, OptimisticDone, CriticalDone, JudgeDone closed off
by a transition to Failed on any external-call failure; a verdict exists
exactly when the run reaches JudgeDone, and a failed run ends in Failed
with no partial-verdict recovery. -/
theorem orchestrate_state_machine (cfg : Config) (g : Gen) (ctx : String) :
    (∃ a b c : List GenCall,
      (orchestrate cfg g ctx).calls = a ++ b ++ c ∧
      (∀ x ∈ a, x.role = .optimistic) ∧
      (∀ x ∈ b, x.role = .critical) ∧
      (∀ x ∈ c, x.role = .judge) ∧
      (c ≠ [] → (optRun cfg g ctx).2.isSome = true ∧ (critRun cfg g ctx).2.isSome = true)) ∧
    ((orchestrate cfg g ctx).stages = [.start, .failed] ∨
      (orchestrate cfg g ctx).stages = [.start, .optimisticDone, .failed] ∨
      (orchestrate cfg g ctx).stages = [.start, .optimisticDone, .criticalDone, .failed] ∨
      (orchestrate cfg g ctx).stages = [.start, .optimisticDone, .criticalDone, .judgeDone]) ∧
    ((∃ v, (orchestrate cfg g ctx).result = .ok v) ↔
      (orchestrate cfg g ctx).stages.getLast? = some .judgeDone) ∧
    (∀ e, (orchestrate cfg g ctx).result = .error e →
      (orchestrate cfg g ctx).stages.getLast? = some .failed) := by
  cases hopt : (optRun cfg g ctx).2 with
  | none =>
    rw [orchestrate_optFail cfg g ctx hopt]
    refine ⟨⟨(optRun cfg g ctx).1, [], [], by simp, ?_, by simp, by simp, ?_⟩, ?_, ?_, ?_⟩
    · exact fun x hx => (genLoop_calls g .optimistic ctx [] cfg.genAttempts 0 x hx).1
    · intro hc; exact absurd rfl hc
    · exact Or.inl rfl
    · constructor
      · rintro ⟨v, hv⟩; exact Except.noConfusion hv
      · intro h
        have h' : ([Stage.start, Stage.failed] : List Stage).getLast? =
            some Stage.judgeDone := h
        exact absurd h' (by decide)
    · intro e _
      rfl
  | some optText =>
    cases hcrit : (critRun cfg g ctx).2 with
    | none =>
      rw [orchestrate_critFail cfg g ctx optText hopt hcrit]
      refine ⟨⟨(optRun cfg g ctx).1, (critRun cfg g ctx).1, [], by simp, ?_, ?_, by simp,
        ?_⟩, ?_, ?_, ?_⟩
      · exact fun x hx => (genLoop_calls g .optimistic ctx [] cfg.genAttempts 0 x hx).1
      · exact fun x hx => (genLoop_calls g .critical ctx [] cfg.genAttempts 0 x hx).1
      · intro hc; exact absurd rfl hc
      · exact Or.inr (Or.inl rfl)
      · constructor
        · rintro ⟨v, hv⟩; exact Except.noConfusion hv
        · intro h
          have h' : ([Stage.start, Stage.optimisticDone, Stage.failed] :
              List Stage).getLast? = some Stage.judgeDone := h
          exact absurd h' (by decide)
      · intro e _
        rfl
    | some critText =>
      cases hj : (judgeRounds cfg g ctx [optText, critText] 0
          (cfg.validationRetries + 1)).2 with
      | ok v =>
        rw [orchestrate_judgeOk cfg g ctx optText critText v hopt hcrit hj]
        refine ⟨⟨(optRun cfg g ctx).1, (critRun cfg g ctx).1,
          (judgeRounds cfg g ctx [optText, critText] 0 (cfg.validationRetries + 1)).1,
          rfl, ?_, ?_, ?_, ?_⟩, ?_, ?_, ?_⟩
        · exact fun x hx => (genLoop_calls g .optimistic ctx [] cfg.genAttempts 0 x hx).1
        · exact fun x hx => (genLoop_calls g .critical ctx [] cfg.genAttempts 0 x hx).1
        · exact fun x hx =>
            (judgeRounds_calls cfg g ctx [optText, critText] (cfg.validationRetries + 1) 0
              x hx).1
        · intro _
          exact ⟨rfl, rfl⟩
        · exact Or.inr (Or.inr (Or.inr rfl))
        · constructor
          · intro _; rfl
          · intro _; exact ⟨v, rfl⟩
        · intro e he; exact Except.noConfusion he
      | error e' =>
        rw [orchestrate_judgeErr cfg g ctx optText critText e' hopt hcrit hj]
        refine ⟨⟨(optRun cfg g ctx).1, (critRun cfg g ctx).1,
          (judgeRounds cfg g ctx [optText, critText] 0 (cfg.validationRetries + 1)).1,
          rfl, ?_, ?_, ?_, ?_⟩, ?_, ?_, ?_⟩
        · exact fun x hx => (genLoop_calls g .optimistic ctx [] cfg.genAttempts 0 x hx).1
        · exact fun x hx => (genLoop_calls g .critical ctx [] cfg.genAttempts 0 x hx).1
        · exact fun x hx =>
            (judgeRounds_calls cfg g ctx [optText, critText] (cfg.validationRetries + 1) 0
              x hx).1
        · intro _
          exact ⟨rfl, rfl⟩
        · exact Or.inr (Or.inr (Or.inl rfl))
        · constructor
          · rintro ⟨v, hv⟩; exact Except.noConfusion hv
          · intro h
            have h' : ([Stage.start, Stage.optimisticDone, Stage.criticalDone,
                Stage.failed] : List Stage).getLast? = some Stage.judgeDone := h
            exact absurd h' (by decide)
        · intro e _
          rfl

/-- Witness for C4: with an oracle whose every call fails, the run ends in
the Failed stage. -/
theorem orchestrate_state_machine_witness :
    (orchestrate defaultConfig genFailAll "c").stages.getLast? = some Stage.failed :=
  (orchestrate_state_machine defaultConfig genFailAll "c").2.2.2 .generation (by decide)

/-- C6: the Optimistic and Critical passes are independent: each is
invoked with no prior opinions (neither observes the other), each pass's
own output is unchanged between two runs that differ only in the other
oracle role, and the Judge pass receives exactly the two produced
opinions. -/
theorem passes_independent (cfg : Config) (ctx : String) :
    (∀ g : Gen, ∀ call ∈ (orchestrate cfg g ctx).calls,
      ((call.role = .optimistic ∨ call.role = .critical) → call.priors = []) ∧
      (call.role = .judge → ∃ ot ct, call.priors = [ot, ct] ∧
        (optRun cfg g ctx).2 = some ot ∧ (critRun cfg g ctx).2 = some ct)) ∧
    (∀ g₁ g₂ : Gen, (∀ i, g₁ .critical ctx [] i = g₂ .critical ctx [] i) →
      critRun cfg g₁ ctx = critRun cfg g₂ ctx) ∧
    (∀ g₁ g₂ : Gen, (∀ i, g₁ .optimistic ctx [] i = g₂ .optimistic ctx [] i) →
      optRun cfg g₁ ctx = optRun cfg g₂ ctx) ∧
    (∀ g : Gen, (optRun cfg g ctx).2.isSome = true →
      (orchestrate cfg g ctx).calls.filter (fun c => c.role == Role.critical) =
        (critRun cfg g ctx).1) := by
  refine ⟨?_, ?_, ?_, ?_⟩
  · intro g call
    cases hopt : (optRun cfg g ctx).2 with
    | none =>
      rw [orchestrate_optFail cfg g ctx hopt]
      intro hmem
      have hrole := genLoop_calls g .optimistic ctx [] cfg.genAttempts 0 call hmem
      constructor
      · intro _; exact hrole.2
      · intro hj; rw [hrole.1] at hj; exact Role.noConfusion hj
    | some optText =>
      cases hcrit : (critRun cfg g ctx).2 with
      | none =>
        rw [orchestrate_critFail cfg g ctx optText hopt hcrit]
        intro hmem
        rcases List.mem_append.mp hmem with hm | hm
        · have hrole := genLoop_calls g .optimistic ctx [] cfg.genAttempts 0 call hm
          constructor
          · intro _; exact hrole.2
          · intro hj; rw [hrole.1] at hj; exact Role.noConfusion hj
        · have hrole := genLoop_calls g .critical ctx [] cfg.genAttempts 0 call hm
          constructor
          · intro _; exact hrole.2
          · intro hj; rw [hrole.1] at hj; exact Role.noConfusion hj
      | some critText =>
        cases hj : (judgeRounds cfg g ctx [optText, critText] 0
            (cfg.validationRetries + 1)).2 with
        | ok v =>
          rw [orchestrate_judgeOk cfg g ctx optText critText v hopt hcrit hj]
          intro hmem
          rcases List.mem_append.mp hmem with hm | hm
          · rcases List.mem_append.mp hm with hm2 | hm2
            · have hrole := genLoop_calls g .optimistic ctx [] cfg.genAttempts 0 call hm2
              constructor
              · intro _; exact hrole.2
              · intro hjr; rw [hrole.1] at hjr; exact Role.noConfusion hjr
            · have hrole := genLoop_calls g .critical ctx [] cfg.genAttempts 0 call hm2
              constructor
              · intro _; exact hrole.2
              · intro hjr; rw [hrole.1] at hjr; exact Role.noConfusion hjr
          · have hrole := judgeRounds_calls cfg g ctx [optText, critText]
              (cfg.validationRetries + 1) 0 call hm
            constructor
            · intro ho
              rw [hrole.1] at ho
              rcases ho with ho | ho
              · exact Role.noConfusion ho
              · exact Role.noConfusion ho
            · intro _; exact ⟨optText, critText, hrole.2, rfl, rfl⟩
        | error e =>
          rw [orchestrate_judgeErr cfg g ctx optText critText e hopt hcrit hj]
          intro hmem
          rcases List.mem_append.mp hmem with hm | hm
          · rcases List.mem_append.mp hm with hm2 | hm2
            · have hrole := genLoop_calls g .optimistic ctx [] cfg.genAttempts 0 call hm2
              constructor
              · intro _; exact hrole.2
              · intro hjr; rw [hrole.1] at hjr; exact Role.noConfusion hjr
            · have hrole := genLoop_calls g .critical ctx [] cfg.genAttempts 0 call hm2
              constructor
              · intro _; exact hrole.2
              · intro hjr; rw [hrole.1] at hjr; exact Role.noConfusion hjr
          · have hrole := judgeRounds_calls cfg g ctx [optText, critText]
              (cfg.validationRetries + 1) 0 call hm
            constructor
            · intro ho
              rw [hrole.1] at ho
              rcases ho with ho | ho
              · exact Role.noConfusion ho
              · exact Role.noConfusion ho
            · intro _; exact ⟨optText, critText, hrole.2, rfl, rfl⟩
  · intro g₁ g₂ h
    exact genLoop_congr g₁ g₂ .critical ctx [] h cfg.genAttempts 0
  · intro g₁ g₂ h
    exact genLoop_congr g₁ g₂ .optimistic ctx [] h cfg.genAttempts 0
  · intro g hsome
    cases hopt : (optRun cfg g ctx).2 with
    | none => rw [hopt] at hsome; simp at hsome
    | some optText =>
      cases hcrit : (critRun cfg g ctx).2 with
      | none =>
        rw [orchestrate_critFail cfg g ctx optText hopt hcrit]
        show ((optRun cfg g ctx).1 ++ (critRun cfg g ctx).1).filter
            (fun c => c.role == Role.critical) = (critRun cfg g ctx).1
        rw [List.filter_append,
          filter_role_none Role.critical Role.optimistic (by decide) ((optRun cfg g ctx).1)
            (fun x hx => (genLoop_calls g .optimistic ctx [] cfg.genAttempts 0 x hx).1),
          filter_role_all Role.critical ((critRun cfg g ctx).1)
            (fun x hx => (genLoop_calls g .critical ctx [] cfg.genAttempts 0 x hx).1)]
        simp
      | some critText =>
        cases hjr : (judgeRounds cfg g ctx [optText, critText] 0
            (cfg.validationRetries + 1)).2 with
        | ok v =>
          rw [orchestrate_judgeOk cfg g ctx optText critText v hopt hcrit hjr]
          show ((optRun cfg g ctx).1 ++ (critRun cfg g ctx).1 ++
              (judgeRounds cfg g ctx [optText, critText] 0
                (cfg.validationRetries + 1)).1).filter
              (fun c => c.role == Role.critical) = (critRun cfg g ctx).1
          rw [List.filter_append, List.filter_append,
            filter_role_none Role.critical Role.optimistic (by decide)
              ((optRun cfg g ctx).1)
              (fun x hx => (genLoop_calls g .optimistic ctx [] cfg.genAttempts 0 x hx).1),
            filter_role_all Role.critical ((critRun cfg g ctx).1)
              (fun x hx => (genLoop_calls g .critical ctx [] cfg.genAttempts 0 x hx).1),
            filter_role_none Role.critical Role.judge (by decide)
              ((judgeRounds cfg g ctx [optText, critText] 0
                (cfg.validationRetries + 1)).1)
              (fun x hx => (judgeRounds_calls cfg g ctx [optText, critText]
                (cfg.validationRetries + 1) 0 x hx).1)]
          simp
        | error e =>
          rw [orchestrate_judgeErr cfg g ctx optText critText e hopt hcrit hjr]
          show ((optRun cfg g ctx).1 ++ (critRun cfg g ctx).1 ++
              (judgeRounds cfg g ctx [optText, critText] 0
                (cfg.validationRetries + 1)).1).filter
              (fun c => c.role == Role.critical) = (critRun cfg g ctx).1
          rw [List.filter_append, List.filter_append,
            filter_role_none Role.critical Role.optimistic (by decide)
              ((optRun cfg g ctx).1)
              (fun x hx => (genLoop_calls g .optimistic ctx [] cfg.genAttempts 0 x hx).1),
            filter_role_all Role.critical ((critRun cfg g ctx).1)
              (fun x hx => (genLoop_calls g .critical ctx [] cfg.genAttempts 0 x hx).1),
            filter_role_none Role.critical Role.judge (by decide)
              ((judgeRounds cfg g ctx [optText, critText] 0
                (cfg.validationRetries + 1)).1)
              (fun x hx => (judgeRounds_calls cfg g ctx [optText, critText]
                (cfg.validationRetries + 1) 0 x hx).1)]
          simp

/-- Witness for C6: two oracles that differ only in their Optimistic text
produce identical Critical passes, and the run's critical calls are
exactly the Critical pass's calls. -/
theorem passes_independent_witness :
    critRun defaultConfig genWitA "ctx" = critRun defaultConfig genWitB "ctx" ∧
    (orchestrate defaultConfig genWitA "ctx").calls.filter
        (fun c => c.role == Role.critical) =
      (critRun defaultConfig genWitA "ctx").1 :=
  ⟨(passes_independent defaultConfig "ctx").2.1 genWitA genWitB (fun _ => rfl),
   (passes_independent defaultConfig "ctx").2.2.2 genWitA (by decide)⟩

/-- C7: when the Judge output is rejected by the validator on every
attempt, only the Judge pass is retried — the Optimistic and Critical
calls of the run are exactly those passes' own calls — the number of Judge
rounds is the configured retry count plus one (default retry count 1), and
the run fails with ValidationError, producing no Verdict. -/
theorem judge_validation_retry (cfg : Config) (g : Gen) (ctx : String) (ot ct : String)
    (hga : 0 < cfg.genAttempts)
    (hopt : (optRun cfg g ctx).2 = some ot)
    (hcrit : (critRun cfg g ctx).2 = some ct)
    (hgen : ∀ i, (g .judge ctx [ot, ct] i).isSome)
    (hbad : ∀ i raw, g .judge ctx [ot, ct] i = some raw → ∀ v, validate raw ≠ .ok v) :
    (orchestrate cfg g ctx).result = .error .validation ∧
    ((orchestrate cfg g ctx).calls.filter (fun c => c.role == Role.judge)).length =
      cfg.validationRetries + 1 ∧
    (orchestrate cfg g ctx).calls.filter (fun c => c.role == Role.optimistic) =
      (optRun cfg g ctx).1 ∧
    (orchestrate cfg g ctx).calls.filter (fun c => c.role == Role.critical) =
      (critRun cfg g ctx).1 ∧
    (∀ v, (orchestrate cfg g ctx).result ≠ .ok v) ∧
    defaultConfig.validationRetries = 1 := by
  have hall := judgeRounds_all_invalid cfg g ctx [ot, ct] hga hgen hbad
    (cfg.validationRetries + 1) 0
  rw [orchestrate_judgeErr cfg g ctx ot ct .validation hopt hcrit hall.1]
  refine ⟨rfl, ?_, ?_, ?_, ?_, rfl⟩
  · show (((optRun cfg g ctx).1 ++ (critRun cfg g ctx).1 ++
        (judgeRounds cfg g ctx [ot, ct] 0 (cfg.validationRetries + 1)).1).filter
        (fun c => c.role == Role.judge)).length = cfg.validationRetries + 1
    rw [List.filter_append, List.filter_append,
      filter_role_none Role.judge Role.optimistic (by decide) ((optRun cfg g ctx).1)
        (fun x hx => (genLoop_calls g .optimistic ctx [] cfg.genAttempts 0 x hx).1),
      filter_role_none Role.judge Role.critical (by decide) ((critRun cfg g ctx).1)
        (fun x hx => (genLoop_calls g .critical ctx [] cfg.genAttempts 0 x hx).1),
      filter_role_all Role.judge
        ((judgeRounds cfg g ctx [ot, ct] 0 (cfg.validationRetries + 1)).1)
        (fun x hx => (judgeRounds_calls cfg g ctx [ot, ct]
          (cfg.validationRetries + 1) 0 x hx).1)]
    simp [hall.2]
  · show ((optRun cfg g ctx).1 ++ (critRun cfg g ctx).1 ++
        (judgeRounds cfg g ctx [ot, ct] 0 (cfg.validationRetries + 1)).1).filter
        (fun c => c.role == Role.optimistic) = (optRun cfg g ctx).1
    rw [List.filter_append, List.filter_append,
      filter_role_all Role.optimistic ((optRun cfg g ctx).1)
        (fun x hx => (genLoop_calls g .optimistic ctx [] cfg.genAttempts 0 x hx).1),
      filter_role_none Role.optimistic Role.critical (by decide) ((critRun cfg g ctx).1)
        (fun x hx => (genLoop_calls g .critical ctx [] cfg.genAttempts 0 x hx).1),
      filter_role_none Role.optimistic Role.judge (by decide)
        ((judgeRounds cfg g ctx [ot, ct] 0 (cfg.validationRetries + 1)).1)
        (fun x hx => (judgeRounds_calls cfg g ctx [ot, ct]
          (cfg.validationRetries + 1) 0 x hx).1)]
    simp
  · show ((optRun cfg g ctx).1 ++ (critRun cfg g ctx).1 ++
        (judgeRounds cfg g ctx [ot, ct] 0 (cfg.validationRetries + 1)).1).filter
        (fun c => c.role == Role.critical) = (critRun cfg g ctx).1
    rw [List.filter_append, List.filter_append,
      filter_role_none Role.critical Role.optimistic (by decide) ((optRun cfg g ctx).1)
        (fun x hx => (genLoop_calls g .optimistic ctx [] cfg.genAttempts 0 x hx).1),
      filter_role_all Role.critical ((critRun cfg g ctx).1)
        (fun x hx => (genLoop_calls g .critical ctx [] cfg.genAttempts 0 x hx).1),
      filter_role_none Role.critical Role.judge (by decide)
        ((judgeRounds cfg g ctx [ot, ct] 0 (cfg.validationRetries + 1)).1)
        (fun x hx => (judgeRounds_calls cfg g ctx [ot, ct]
          (cfg.validationRetries + 1) 0 x hx).1)]
    simp
  · intro v hv; exact Except.noConfusion hv

/-- Witness for C7: an oracle whose Judge output never validates makes the
run fail with ValidationError. -/
theorem judge_validation_retry_witness :
    (orchestrate defaultConfig genBadJudge "ctx").result = .error .validation :=
  (judge_validation_retry defaultConfig genBadJudge "ctx" "opt" "crit"
    (by decide) rfl rfl (fun _ => rfl)
    (fun i raw h v hv => by
      injection h with h'
      subst h'
      have hval : validate "no labels here" = .error .wrongLineCount := by decide
      rw [hval] at hv
      exact Except.noConfusion hv)).1

set_option maxRecDepth 10000 in
/-- Witness for C5 (amended): with the default 4000-character budget the
sample context is within budget and decomposes as metadata plus an
evidence-body unchanged up to end-truncation. -/
theorem renderContext_budget_witness :
    (renderContext defaultConfig metaLong evTiny).length ≤ defaultConfig.contextBudget ∧
    ∃ body rest : List Char,
      renderContext defaultConfig metaLong evTiny =
        renderMetadata metaLong ++ String.mk body ∧
      (renderEvidence defaultConfig evTiny).data = body ++ rest :=
  renderContext_budget defaultConfig metaLong evTiny (by decide)

/-! ## Pipeline soundness -/

theorem checkLine_ok_fieldOk (label line b : String) (hn : '\n' ∉ line.data)
    (h : checkLine label line = .ok b) : fieldOk b := by
  unfold checkLine at h
  split_ifs at h with h1 h2 h3 h4
  injection h with hb
  subst hb
  have hlen : line.length = line.data.length := rfl
  refine ⟨h3, ?_, ?_, ?_, ?_⟩
  · show (line.data.drop label.data.length).length ≤ 200
    rw [List.length_drop]
    omega
  · intro hm
    exact hn (List.drop_subset _ _ hm)
  · have h4f : forbiddenIn line.data = false := by simpa using h4
    exact hasSub_drop_eq_false _ _ ((Bool.or_eq_false_iff.mp h4f).1) _
  · have h4f : forbiddenIn line.data = false := by simpa using h4
    exact hasSub_drop_eq_false _ _ ((Bool.or_eq_false_iff.mp h4f).2) _

theorem validate_ok_wellFormed (raw : String) (v : Verdict)
    (h : validate raw = .ok v) : verdictWellFormed v := by
  unfold validate at h
  revert h
  cases hs : splitChar '\n' raw.data with
  | nil => intro h; exact Except.noConfusion h
  | cons a t1 =>
    cases t1 with
    | nil => intro h; exact Except.noConfusion h
    | cons b t2 =>
      cases t2 with
      | nil => intro h; exact Except.noConfusion h
      | cons c t3 =>
        cases t3 with
        | cons d t4 => intro h; exact Except.noConfusion h
        | nil =>
          intro h
          unfold validate3 at h
          have hna : '\n' ∉ a :=
            mem_splitChar_not_mem '\n' raw.data a (by rw [hs]; simp)
          have hnb : '\n' ∉ b :=
            mem_splitChar_not_mem '\n' raw.data b (by rw [hs]; simp)
          have hnc : '\n' ∉ c :=
            mem_splitChar_not_mem '\n' raw.data c (by rw [hs]; simp)
          rcases hp : checkLine "Pros:" (String.mk a) with e | p
          · simp only [hp] at h
            exact Except.noConfusion h
          · rcases hc : checkLine "Cons:" (String.mk b) with e | q
            · simp only [hp, hc] at h
              exact Except.noConfusion h
            · rcases hr : checkLine "Our verdict:" (String.mk c) with e | r
              · simp only [hp, hc, hr] at h
                exact Except.noConfusion h
              · simp only [hp, hc, hr] at h
                injection h with hv
                subst hv
                exact ⟨checkLine_ok_fieldOk "Pros:" (String.mk a) p hna hp,
                  checkLine_ok_fieldOk "Cons:" (String.mk b) q hnb hc,
                  checkLine_ok_fieldOk "Our verdict:" (String.mk c) r hnc hr⟩

theorem orchestrate_ok_validated (cfg : Config) (g : Gen) (ctx : String) (v : Verdict)
    (h : (orchestrate cfg g ctx).result = .ok v) :
    ∃ raw, validate raw = .ok v ∧ ∃ priors i, g .judge ctx priors i = some raw := by
  cases hopt : (optRun cfg g ctx).2 with
  | none =>
    rw [orchestrate_optFail cfg g ctx hopt] at h
    exact Except.noConfusion h
  | some optText =>
    cases hcrit : (critRun cfg g ctx).2 with
    | none =>
      rw [orchestrate_critFail cfg g ctx optText hopt hcrit] at h
      exact Except.noConfusion h
    | some critText =>
      cases hj : (judgeRounds cfg g ctx [optText, critText] 0
          (cfg.validationRetries + 1)).2 with
      | error e =>
        rw [orchestrate_judgeErr cfg g ctx optText critText e hopt hcrit hj] at h
        exact Except.noConfusion h
      | ok w =>
        rw [orchestrate_judgeOk cfg g ctx optText critText w hopt hcrit hj] at h
        injection h with hw
        obtain ⟨raw, hraw, i, hi⟩ := judgeRounds_ok_validated cfg g ctx
          [optText, critText] (cfg.validationRetries + 1) 0 w hj
        rw [hw] at hraw
        exact ⟨raw, hraw, [optText, critText], i, hi⟩

/-- C8: Evaluate never fabricates a verdict: every returned Verdict is
well-formed (three non-empty single lines within the 200-character limit
and free of forbidden terms) and is exactly a validated Judge generation;
a missing business propagates NotFoundError unchanged, a ContextBuilder
failure propagates its error unchanged, and otherwise the orchestrator
outcome (including exhausted generation or validation retries) is passed
through unchanged. -/
theorem evaluate_sound (cfg : Config) (ext : External) (bid : String) :
    (∀ v, evaluate cfg ext bid = .ok v →
      verdictWellFormed v ∧ ∃ raw, validate raw = .ok v ∧
        ∃ ctx priors i, ext.gen .judge ctx priors i = some raw) ∧
    (ext.fetchMetadata bid = none → evaluate cfg ext bid = .error .notFound) ∧
    (∀ meta e, ext.fetchMetadata bid = some meta →
      buildEvidence cfg (ext.summarize meta) (ext.fetchReviews bid) = .error e →
      evaluate cfg ext bid = .error e) ∧
    (∀ meta ev, ext.fetchMetadata bid = some meta →
      buildEvidence cfg (ext.summarize meta) (ext.fetchReviews bid) = .ok ev →
      evaluate cfg ext bid = (orchestrate cfg ext.gen (renderContext cfg meta ev)).result) := by
  refine ⟨?_, ?_, ?_, ?_⟩
  · intro v
    unfold evaluate
    cases hm : ext.fetchMetadata bid with
    | none => intro hv; exact Except.noConfusion hv
    | some meta =>
      show (match buildEvidence cfg (ext.summarize meta) (ext.fetchReviews bid) with
        | .error e => (Except.error e : Except PipelineError Verdict)
        | .ok ev => (orchestrate cfg ext.gen (renderContext cfg meta ev)).result) =
          .ok v →
        verdictWellFormed v ∧ ∃ raw, validate raw = .ok v ∧
          ∃ ctx priors i, ext.gen .judge ctx priors i = some raw
      cases hb : buildEvidence cfg (ext.summarize meta) (ext.fetchReviews bid) with
      | error e => intro hv; exact Except.noConfusion hv
      | ok ev =>
        intro hv
        obtain ⟨raw, hraw, priors, i, hi⟩ :=
          orchestrate_ok_validated cfg ext.gen (renderContext cfg meta ev) v hv
        exact ⟨validate_ok_wellFormed raw v hraw, raw, hraw,
          renderContext cfg meta ev, priors, i, hi⟩
  · intro hm
    unfold evaluate
    rw [hm]
  · intro meta e hm hb
    unfold evaluate
    rw [hm]
    show (match buildEvidence cfg (ext.summarize meta) (ext.fetchReviews bid) with
      | .error e => (Except.error e : Except PipelineError Verdict)
      | .ok ev => (orchestrate cfg ext.gen (renderContext cfg meta ev)).result) = .error e
    rw [hb]
  · intro meta ev hm hb
    unfold evaluate
    rw [hm]
    show (match buildEvidence cfg (ext.summarize meta) (ext.fetchReviews bid) with
      | .error e => (Except.error e : Except PipelineError Verdict)
      | .ok ev => (orchestrate cfg ext.gen (renderContext cfg meta ev)).result) =
        (orchestrate cfg ext.gen (renderContext cfg meta ev)).result
    rw [hb]

set_option maxRecDepth 10000 in
/-- Witness for C8: an unknown business propagates NotFoundError, and a
fully successful run returns a well-formed Verdict coming from the
validator. -/
theorem evaluate_sound_witness :
    evaluate defaultConfig extNotFound "x" = .error .notFound ∧
    (verdictWellFormed ⟨" tasty", " loud", " go early"⟩ ∧
      ∃ raw, validate raw = .ok ⟨" tasty", " loud", " go early"⟩ ∧
        ∃ ctx priors i, extGood.gen .judge ctx priors i = some raw) :=
  ⟨(evaluate_sound defaultConfig extNotFound "x").2.1 rfl,
   (evaluate_sound defaultConfig extGood "b").1 ⟨" tasty", " loud", " go early"⟩
     (by decide)⟩

/-! ## Home screen theorems -/

/-- C9: pressing the single `Get Started` button on the Home screen
triggers exactly one navigation action, to `AddPhoto`; no other navigation
target is reachable from the Home screen, whatever the context value. -/
theorem home_navigates_only_addPhoto (ctx : AppContext) :
    navTargets (Home ctx) = ["AddPhoto"] ∧ touchCount (Home ctx) = 1 :=
  ⟨rfl, rfl⟩

/-- C10: the Home screen is a deterministic pure function of the
`isLoading` flag it reads from AppContext — two context values agreeing on
`isLoading` render identically — and the always-rendered LoadingScreen
overlay is visible exactly when `isLoading` is true. -/
theorem home_pure_function (c₁ c₂ : AppContext) (h : c₁.isLoading = c₂.isLoading) :
    loadingFlags (Home c₁) = [c₁.isLoading] ∧ Home c₁ = Home c₂ := by
  constructor
  · rfl
  · unfold Home
    rw [h]

/-- Witness for C10: two contexts with equal `isLoading` but different
other provider values render the same tree, with the overlay visible. -/
theorem home_pure_function_witness :
    loadingFlags (Home ⟨true, []⟩) = [true] ∧
    Home ⟨true, []⟩ = Home ⟨true, [("key", "value")]⟩ :=
  home_pure_function ⟨true, []⟩ ⟨true, [("key", "value")]⟩ rfl

end WTF
